import Mathlib

/-!
Shallow embedding of the batch image-OCR-to-SRT engine in `src/main.py`.

The embedded core consists of:
* `filename_pattern` (main.py lines 47-50), embedded as the deterministic
  parser `matchFilename` (the regex has no genuine backtracking: every
  quantified group is either a maximal digit run followed by a non-digit
  separator, a fixed-width digit group, or the non-greedy tail anchored by
  the end of the string);
* `format_srt_time` (lines 53-54) as `format_srt_time`;
* `ocr_image_with_gemini` (lines 56-88) as `ocrImage`, with the provider
  interaction (PIL + Gemini response) as the free input `ProviderOutcome`;
* `process_images_to_srt_core` (lines 90-198) as `coreRun`, with the
  filesystem and network effects (api key validity, model configuration,
  directory existence, directory listing, final file write) as the free
  input `Env`, and the log/progress callbacks reified as event traces.

Machine-level caveats of the model, stated once here: Python `\d` and
`str.lower` are Unicode-aware, the model restricts them to their ASCII
behaviour; Python's `$` also matches just before a trailing newline, the
model anchors at the end of the string; worker log lines are interleaved
nondeterministically by the thread pool at runtime, the model collects them
per task in task order and only membership facts are proved about them.
-/

/-- ASCII decimal digit, the characters matched by the pattern's digit
groups. -/
def isDigitChar (c : Char) : Bool :=
  ('0'.toNat ≤ c.toNat) && (c.toNat ≤ '9'.toNat)

/-- Numeric value of a decimal digit character. -/
def digitVal (c : Char) : Nat := c.toNat - '0'.toNat

/-- Value of a big-endian decimal digit string, the model of Python
`int(s)` on the digit strings captured by the pattern. -/
def digitsToNat (cs : List Char) : Nat :=
  cs.foldl (fun a c => 10 * a + digitVal c) 0

/-- Model of Python `int(s)` for a captured digit group. -/
def strToNat (s : String) : Nat := digitsToNat s.data

/-- Decimal digit character of a value below ten. -/
def natDigit (n : Nat) : Char := Char.ofNat ('0'.toNat + n)

/-- Fuel-indexed big-endian decimal printer; the fuel only serves
termination and `natDigits` always supplies enough. -/
def natDigitsAux : Nat → Nat → List Char
  | 0, _ => []
  | fuel + 1, n =>
    if n < 10 then [natDigit n]
    else natDigitsAux fuel (n / 10) ++ [natDigit (n % 10)]

/-- Big-endian decimal digits of a natural number, the model of Python
`str`/`%d` on a nonnegative integer. -/
def natDigits (n : Nat) : List Char := natDigitsAux (n + 1) n

/-- Decimal rendering of a natural number. -/
def natToString (n : Nat) : String := ⟨natDigits n⟩

/-- Zero padding to a minimum width, the model of Python's `{:0Nd}` format
on a nonnegative integer: pad on the left with zeros, widening past the
requested width rather than truncating. -/
def padZ (w : Nat) (s : String) : String :=
  String.mk (List.replicate (w - s.data.length) '0') ++ s

/-- Model of `format_srt_time` (main.py lines 53-54): each field is
converted with `int` and rendered zero-padded, hours/minutes/seconds to two
digits and milliseconds to three. -/
def format_srt_time (h m s ms : String) : String :=
  padZ 2 (natToString (strToNat h)) ++ ":" ++ padZ 2 (natToString (strToNat m)) ++ ":"
    ++ padZ 2 (natToString (strToNat s)) ++ "," ++ padZ 3 (natToString (strToNat ms))

/-- Python `"sep".join(parts)`. -/
def pyJoin (sep : String) : List String → String
  | [] => ""
  | [x] => x
  | x :: y :: rest => x ++ sep ++ pyJoin sep (y :: rest)

/-- Whitespace stripped by Python `str.strip()` (ASCII fragment). -/
def isPySpace (c : Char) : Bool :=
  c = ' ' || c = '\t' || c = '\n' || c = '\x0d' || c = '\x0b' || c = '\x0c'

/-- Python `str.strip()`: drop leading and trailing whitespace. -/
def pyStrip (s : String) : String :=
  ⟨((s.data.dropWhile isPySpace).reverse.dropWhile isPySpace).reverse⟩

/-- Python `str.lower()` (ASCII fragment), used for the case-insensitive
extension checks. -/
def pyLower (s : String) : String := ⟨s.data.map Char.toLower⟩

/-- The eight digit groups and the extension group captured by
`filename_pattern` (main.py lines 47-50), exactly as matched (leading
zeros preserved). -/
structure MatchGroups where
  h1 : String
  m1 : String
  s1 : String
  ms1 : String
  h2 : String
  m2 : String
  s2 : String
  ms2 : String
  ext : String
deriving DecidableEq

/-- Exactly `n` digit characters, then the rest; the model of a
fixed-width group such as `(\d{2})` or `(\d{3})`. -/
def takeDigitsExact (n : Nat) (cs : List Char) : Option (List Char × List Char) :=
  let pre := cs.take n
  if pre.length = n && pre.all isDigitChar then some (pre, cs.drop n) else none

/-- One timestamp prefix `(\d+)_(\d{2})_(\d{2})_(\d{3})` of the pattern.
`(\d+)` before the literal `_` can only match the maximal digit run, so the
parser is deterministic. Returns the four captured groups and the rest. -/
def parseTs (cs : List Char) : Option ((String × String × String × String) × List Char) :=
  let hs := cs.takeWhile isDigitChar
  if hs.isEmpty then none
  else
    match cs.dropWhile isDigitChar with
    | '_' :: r1 =>
      match takeDigitsExact 2 r1 with
      | some (mm, r2) =>
        match r2 with
        | '_' :: r3 =>
          match takeDigitsExact 2 r3 with
          | some (ss, r4) =>
            match r4 with
            | '_' :: r5 =>
              match takeDigitsExact 3 r5 with
              | some (mss, r6) => some ((⟨hs⟩, ⟨mm⟩, ⟨ss⟩, ⟨mss⟩), r6)
              | none => none
            | _ => none
          | none => none
        | _ => none
      | none => none
    | _ => none

/-- Tail `.*?\.(jpe?g)$` restricted to the three-character extension:
the string must end in a case-insensitive `.jpg` and the skipped middle may
not contain a newline (regex `.`). Input is the reversed remainder. -/
def checkJpgRev (rev : List Char) : Option String :=
  match rev with
  | g :: p :: j :: '.' :: mid =>
    if g.toLower = 'g' && p.toLower = 'p' && j.toLower = 'j'
        && mid.all (fun c => c != '\n') then
      some ⟨[j, p, g]⟩
    else none
  | _ => none

/-- Tail `.*?\.(jpe?g)$` of the pattern: the extension group is anchored at
the end of the string, so the remainder must end in a case-insensitive
`.jpeg` or `.jpg`, and the non-greedy `.*?` middle may not contain a
newline. Returns the extension exactly as written. -/
def extSuffix (rest : List Char) : Option String :=
  let rev := rest.reverse
  match rev with
  | g :: e :: p :: j :: '.' :: mid =>
    if g.toLower = 'g' && e.toLower = 'e' && p.toLower = 'p' && j.toLower = 'j'
        && mid.all (fun c => c != '\n') then
      some ⟨[j, p, e, g]⟩
    else checkJpgRev rev
  | _ => checkJpgRev rev

/-- Model of `filename_pattern.match` (main.py lines 47-50): the anchored,
case-insensitive regex
`^(\d+)_(\d{2})_(\d{2})_(\d{3})__(\d+)_(\d{2})_(\d{2})_(\d{3}).*?\.(jpe?g)$`.
Returns the nine captured groups on a match. -/
def matchFilename (f : String) : Option MatchGroups :=
  match parseTs f.data with
  | none => none
  | some ((a1, b1, c1, d1), r1) =>
    match r1 with
    | '_' :: '_' :: r2 =>
      match parseTs r2 with
      | none => none
      | some ((a2, b2, c2, d2), r3) =>
        match extSuffix r3 with
        | none => none
        | some e => some ⟨a1, b1, c1, d1, a2, b2, c2, d2, e⟩
    | _ => none

/-- One task's metadata dictionary (main.py lines 138-143). -/
structure TaskMeta where
  filename : String
  image_path : String
  start_time_str : String
  end_time_str : String
deriving DecidableEq

/-- Task construction from a matching filename (main.py lines 133-143);
`os.path.join` is modelled as joining with a slash. The `none` branch is
unreachable for the files the core feeds in, since they were filtered by
the same pattern. -/
def mkTaskMeta (inputFolder f : String) : TaskMeta :=
  match matchFilename f with
  | some g =>
    { filename := f
      image_path := inputFolder ++ "/" ++ f
      start_time_str := format_srt_time g.h1 g.m1 g.s1 g.ms1
      end_time_str := format_srt_time g.h2 g.m2 g.s2 g.ms2 }
  | none =>
    { filename := f, image_path := inputFolder ++ "/" ++ f
      start_time_str := "", end_time_str := "" }

/-- Python string `<` (used by tuple comparison inside `list.sort`):
lexicographic comparison of code points. -/
def charsLt : List Char → List Char → Bool
  | [], [] => false
  | [], _ :: _ => true
  | _ :: _, [] => false
  | a :: as, b :: bs =>
    if a.toNat < b.toNat then true
    else if b.toNat < a.toNat then false
    else charsLt as bs

/-- Python tuple `<` on the tuple of captured group strings (all key tuples
built by the core have length four): lexicographic over the component
strings. -/
def keyLt : List (List Char) → List (List Char) → Bool
  | [], [] => false
  | [], _ :: _ => true
  | _ :: _, [] => false
  | a :: as, b :: bs =>
    if charsLt a b then true
    else if charsLt b a then false
    else keyLt as bs

/-- Sort key built at main.py line 130:
`filename_pattern.match(f).groups()[:4]`, the four start-time digit strings
exactly as matched (Python compares them as a tuple of strings). The
`none` branch is unreachable: the sort runs only on matched filenames. -/
def sortKey (f : String) : List (List Char) :=
  match matchFilename f with
  | some g => [g.h1.data, g.m1.data, g.s1.data, g.ms1.data]
  | none => []

/-- Python `list.sort(key=...)` is a stable ascending sort; it equals the
unique sort of the position-tagged list by the strict total order
"(key, original position) lexicographic". `taggedLe` is that total order. -/
def taggedLe (p q : Nat × String) : Bool :=
  if keyLt (sortKey p.2) (sortKey q.2) then true
  else if keyLt (sortKey q.2) (sortKey p.2) then false
  else decide (p.1 ≤ q.1)

/-- Propositional form of `taggedLe` for `List.insertionSort`. -/
def taggedLeP (p q : Nat × String) : Prop := taggedLe p q = true

instance : DecidableRel taggedLeP := fun p q =>
  inferInstanceAs (Decidable (taggedLe p q = true))

/-- Python `enumerate`: tag each element with its position, starting at
`i`. -/
def tagFrom {α} (i : Nat) : List α → List (Nat × α)
  | [] => []
  | a :: l => (i, a) :: tagFrom (i + 1) l

/-- Filenames accepted by the pattern filter (main.py lines 114-119), in
directory-listing order. -/
def matchedFiles (listing : List String) : List String :=
  listing.filter (fun f => (matchFilename f).isSome)

/-- Position-tagged matched filenames sorted by start-time key: the model
of the stable `image_files_temp.sort(key=...)` at line 130 (see
`taggedLe`). -/
def sortedTagged (listing : List String) : List (Nat × String) :=
  List.insertionSort taggedLeP (tagFrom 0 (matchedFiles listing))

/-- The sorted file list the core iterates over after line 130. -/
def sortedMatched (listing : List String) : List String :=
  (sortedTagged listing).map Prod.snd

/-- The `log_callback` call sites of the core, one constructor each,
carrying the data interpolated into the message; the five header lines of
main.py lines 91-95 are collapsed into the single `startBanner` event. -/
inductive LogEvent where
  | startBanner (numThreads : Nat) (inputFolder outputFolder outputSrtFile modelName : String)
  | apiKeyMissing
  | configError
  | inputNotFound (folder : String)
  | skipPattern (filename : String)
  | noImagesFound
  | noValidTasks
  | foundCount (n : Nat)
  | doneTask (filename : String) (idx total : Nat)
  | skipEntry (filename text : String)
  | criticalError (filename : String)
  | writeSuccess (path : String)
  | entriesWritten (n : Nat)
  | writeError (path : String)
  | warnNoTextPart (path : String)
  | warnEmptyResponse (path : String)
  | errBlocked (path : String)
  | errStopped (path : String)
  | errFileNotFound (path : String)
  | errGeneric (path : String)
deriving DecidableEq

/-- Outcome of the provider interaction inside one call of
`ocr_image_with_gemini`: a response whose parts carry the given text
attributes, a response with parts but no text parts is `success []`, an
empty/blocked response, or one of the four exception classes of lines
77-88. -/
inductive ProviderOutcome where
  | success (texts : List String)
  | emptyResponse
  | blockedPrompt
  | stopCandidate
  | fileNotFound
  | otherError
deriving DecidableEq

/-- Model of `ocr_image_with_gemini` (main.py lines 56-88): returns the
extracted text or in-band failure marker, together with the log lines the
call emits. -/
def ocrImage (po : ProviderOutcome) (path : String) : String × List LogEvent :=
  match po with
  | .success texts =>
    if texts.isEmpty then ("", [.warnNoTextPart path])
    else (pyStrip (pyJoin "\n" texts), [])
  | .emptyResponse => ("", [.warnEmptyResponse path])
  | .blockedPrompt => ("[OCR Blocked]", [.errBlocked path])
  | .stopCandidate => ("[OCR Stopped]", [.errStopped path])
  | .fileNotFound => ("[File Not Found]", [.errFileNotFound path])
  | .otherError => ("[OCR Error]", [.errGeneric path])

/-- What happens inside one worker thread: either `ocr_image_with_gemini`
runs to completion on some provider outcome, or the worker fails in a way
its handlers do not catch, so `future.result()` raises at the collection
point. -/
inductive WorkerOutcome where
  | ok (po : ProviderOutcome)
  | crashed
deriving DecidableEq

/-- Value delivered by `future.result()` at main.py line 173: the returned
string, or an exception. -/
def workerResult (w : WorkerOutcome) (path : String) : Except Unit String :=
  match w with
  | .ok po => .ok (ocrImage po path).1
  | .crashed => .error ()

/-- Log lines emitted inside the worker; a crashed worker's partial logs
are not modelled. Real inter-thread interleaving is arbitrary, so only
membership facts are proved about worker logs. -/
def workerLogsOf (w : WorkerOutcome) (path : String) : List LogEvent :=
  match w with
  | .ok po => (ocrImage po path).2
  | .crashed => []

/-- Submit-all (main.py lines 161-164): the value eventually held by
`future_to_ocr[i]` is determined by task `i` alone. -/
def submitAll {ρ : Type} (recognize : TaskMeta → ρ) (metas : List TaskMeta) : List ρ :=
  metas.map recognize

/-- Slot state after the workers listed in `order` have completed: each
worker owns exactly its own task's future, so completing worker `j` fills
slot `j` with `futures[j]`. -/
def fillSlots {ρ : Type} (futures : List ρ) : List Nat → Nat → Option ρ
  | [], _ => none
  | j :: rest, k => if k = j then futures[j]? else fillSlots futures rest k

/-- Ordered collection (main.py lines 166-173): the collector iterates
task indices 0, 1, ... in the original order, blocking on each specific
future; reading slot `i` yields its content once filled. -/
def collectOrdered {ρ : Type} (slots : Nat → Option ρ) (n : Nat) : List (Option ρ) :=
  (List.range n).map slots

/-- The Batch Scheduler of lines 158-173: submit all tasks, let the
workers complete in the arbitrary order `order`, collect in task order. -/
def schedulerRun {ρ : Type} (recognize : TaskMeta → ρ) (metas : List TaskMeta)
    (order : List Nat) : List (Option ρ) :=
  collectOrdered (fillSlots (submitAll recognize metas) order) metas.length

/-- The in-band failure marker strings the collection loop filters out
(main.py line 175). -/
def markerStrings : List String :=
  ["[OCR Blocked]", "[OCR Stopped]", "[File Not Found]", "[OCR Error]"]

/-- One SRT body block without its trailing newline: index line, time
line, text line. -/
def mkBlock (c : Nat) (m : TaskMeta) (t : String) : String :=
  natToString c ++ "\n" ++ m.start_time_str ++ " --> " ++ m.end_time_str ++ "\n" ++ t

/-- One appended SRT entry (main.py line 176):
`f"{counter}\n{start} --> {end}\n{text}\n"`. -/
def mkSrtEntry (c : Nat) (m : TaskMeta) (t : String) : String :=
  mkBlock c m t ++ "\n"

/-- Mutable state of the collection loop of main.py lines 154-187. -/
structure LoopOut where
  entries : List String
  counter : Nat
  processed : Nat
  logs : List LogEvent
  progress : List (Nat × Nat)
deriving DecidableEq

/-- One iteration of the collection loop (main.py lines 167-187) on task
index `idx`: log the Done line, read the future (which may raise), either
append a numbered entry or log a skip, then count the task and emit one
progress event. -/
def stepTask (total idx : Nat) (m : TaskMeta) (r : Except Unit String) (st : LoopOut) : LoopOut :=
  let logs1 := st.logs ++ [.doneTask m.filename (idx + 1) total]
  match r with
  | .error _ =>
    { st with processed := st.processed + 1
              logs := logs1 ++ [.criticalError m.filename]
              progress := st.progress ++ [(st.processed + 1, total)] }
  | .ok t =>
    if t ≠ "" ∧ t ∉ markerStrings then
      { st with entries := st.entries ++ [mkSrtEntry st.counter m t]
                counter := st.counter + 1
                processed := st.processed + 1
                logs := logs1
                progress := st.progress ++ [(st.processed + 1, total)] }
    else
      { st with processed := st.processed + 1
                logs := logs1 ++ [.skipEntry m.filename t]
                progress := st.progress ++ [(st.processed + 1, total)] }

/-- The collection loop over the aligned (task, future value) sequence. -/
def runLoop (total : Nat) : Nat → LoopOut → List (TaskMeta × Except Unit String) → LoopOut
  | _, st, [] => st
  | idx, st, (m, r) :: rest => runLoop total (idx + 1) (stepTask total idx m r st) rest

/-- Initial loop state (main.py lines 154-156). -/
def loopInit : LoopOut :=
  { entries := [], counter := 1, processed := 0, logs := [], progress := [] }

/-- Python `filename.lower().endswith(('.jpg', '.jpeg'))` (line 121). -/
def endsJpgOrJpeg (f : String) : Bool :=
  (".jpg".data.isSuffixOf (pyLower f).data) || (".jpeg".data.isSuffixOf (pyLower f).data)

/-- Skip log lines emitted while filtering the listing (lines 116-122), in
listing order. -/
def skipLogsOf (listing : List String) : List LogEvent :=
  listing.filterMap (fun f =>
    if (matchFilename f).isNone && endsJpgOrJpeg f then some (.skipPattern f) else none)

/-- Ambient effects consumed by `process_images_to_srt_core`, reified as
inputs: the six configuration arguments, plus the outcome of each external
operation the code performs (model configuration at lines 101-106,
`os.path.isdir` at line 108, `os.listdir` at line 115, the final write at
lines 190-192). -/
structure Env where
  apiKey : String
  inputFolder : String
  outputFolder : String
  outputSrtFile : String
  geminiModelName : String
  numThreads : Nat
  modelConfigOk : Bool
  inputFolderIsDir : Bool
  listing : List String
  writeOk : Bool
deriving DecidableEq

/-- Everything observable about one run of the core: the returned flag,
the two callback streams, the side effects on the filesystem, and (for
stating preservation facts) the internal entry list. -/
structure RunResult where
  success : Bool
  logs : List LogEvent
  workerLogs : List LogEvent
  progress : List (Nat × Nat)
  tasks : List TaskMeta
  entries : List String
  written : Option String
  outputDirCreated : Bool
  filesEnumerated : Bool
  workersStarted : Bool
deriving DecidableEq

/-- Output path `os.path.join(output_folder, output_srt_file)` (line 189). -/
def outPath (env : Env) : String := env.outputFolder ++ "/" ++ env.outputSrtFile

/-- The sorted task list of the run (main.py lines 129-143). -/
def mainMetas (env : Env) : List TaskMeta :=
  (sortedMatched env.listing).map (mkTaskMeta env.inputFolder)

/-- The aligned (task, future value) sequence consumed by the collection
loop: task `i` paired with worker `i`'s `future.result()` value. -/
def mainPairs (env : Env) (worker : Nat → WorkerOutcome) : List (TaskMeta × Except Unit String) :=
  (tagFrom 0 (mainMetas env)).map (fun p => (p.2, workerResult (worker p.1) p.2.image_path))

/-- All worker-side log lines of the run, collected per task in task
order. -/
def mainWorkerLogs (env : Env) (worker : Nat → WorkerOutcome) : List LogEvent :=
  ((tagFrom 0 (mainMetas env)).map (fun p => workerLogsOf (worker p.1) p.2.image_path)).flatten

/-- The collection loop of the run (main.py lines 154-187). -/
def mainLoop (env : Env) (worker : Nat → WorkerOutcome) : LoopOut :=
  runLoop (mainMetas env).length 0 loopInit (mainPairs env worker)

/-- Model of `process_images_to_srt_core` (main.py lines 90-198). `worker`
gives worker `i`'s fate on the `i`-th task in sorted order; by
`fillSlots_lookup` the collected values are these regardless of the
completion order of the pool. -/
def coreRun (env : Env) (worker : Nat → WorkerOutcome) : RunResult :=
  let banner : List LogEvent :=
    [.startBanner env.numThreads env.inputFolder env.outputFolder env.outputSrtFile env.geminiModelName]
  if env.apiKey = "" then
    { success := false, logs := banner ++ [.apiKeyMissing], workerLogs := []
      progress := [], tasks := [], entries := [], written := none
      outputDirCreated := false, filesEnumerated := false, workersStarted := false }
  else if env.modelConfigOk = false then
    { success := false, logs := banner ++ [.configError], workerLogs := []
      progress := [], tasks := [], entries := [], written := none
      outputDirCreated := false, filesEnumerated := false, workersStarted := false }
  else if env.inputFolderIsDir = false then
    { success := false, logs := banner ++ [.inputNotFound env.inputFolder], workerLogs := []
      progress := [], tasks := [], entries := [], written := none
      outputDirCreated := false, filesEnumerated := false, workersStarted := false }
  else
    let skips := skipLogsOf env.listing
    if (matchedFiles env.listing).isEmpty then
      { success := false, logs := banner ++ skips ++ [.noImagesFound], workerLogs := []
        progress := [(0, 0)], tasks := [], entries := [], written := none
        outputDirCreated := true, filesEnumerated := true, workersStarted := false }
    else
      if (mainMetas env).length = 0 then
        { success := false, logs := banner ++ skips ++ [.noValidTasks], workerLogs := []
          progress := [(0, 0)], tasks := mainMetas env, entries := [], written := none
          outputDirCreated := true, filesEnumerated := true, workersStarted := false }
      else
        let loop := mainLoop env worker
        if env.writeOk then
          { success := true
            logs := banner ++ skips ++ [.foundCount (mainMetas env).length] ++ loop.logs
              ++ [.writeSuccess (outPath env), .entriesWritten loop.entries.length]
            workerLogs := mainWorkerLogs env worker
            progress := (0, (mainMetas env).length) :: loop.progress
            tasks := mainMetas env, entries := loop.entries
            written := some (pyJoin "\n" loop.entries)
            outputDirCreated := true, filesEnumerated := true, workersStarted := true }
        else
          { success := false
            logs := banner ++ skips ++ [.foundCount (mainMetas env).length] ++ loop.logs
              ++ [.writeError (outPath env)]
            workerLogs := mainWorkerLogs env worker
            progress := (0, (mainMetas env).length) :: loop.progress
            tasks := mainMetas env, entries := loop.entries, written := none
            outputDirCreated := true, filesEnumerated := true, workersStarted := true }

/-- Entries appended by the collection loop over `ps` with the counter
starting at `c`: the entry-building slice of main.py lines 173-180. -/
def entriesOf : List (TaskMeta × Except Unit String) → Nat → List String
  | [], _ => []
  | (m, r) :: rest, c =>
    match r with
    | .error _ => entriesOf rest c
    | .ok t =>
      if t ≠ "" ∧ t ∉ markerStrings then mkSrtEntry c m t :: entriesOf rest (c + 1)
      else entriesOf rest c

/-- Number of pairs of `ps` that survive into the entry list. -/
def keptCount : List (TaskMeta × Except Unit String) → Nat
  | [] => 0
  | (_, r) :: rest =>
    match r with
    | .error _ => keptCount rest
    | .ok t => if t ≠ "" ∧ t ∉ markerStrings then keptCount rest + 1 else keptCount rest

/-- Main-thread log lines of the collection loop over `ps`, with the task
index starting at `idx`. -/
def logsOf (total : Nat) : Nat → List (TaskMeta × Except Unit String) → List LogEvent
  | _, [] => []
  | idx, (m, r) :: rest =>
    (LogEvent.doneTask m.filename (idx + 1) total ::
      match r with
      | .error _ => [LogEvent.criticalError m.filename]
      | .ok t =>
        if t ≠ "" ∧ t ∉ markerStrings then [] else [LogEvent.skipEntry m.filename t])
      ++ logsOf total (idx + 1) rest

/-- Progress events of the collection loop: one per task, the completed
count climbing from `p0 + 1`, the total fixed. -/
def progressOf (p0 total n : Nat) : List (Nat × Nat) :=
  (List.range n).map (fun j => (p0 + 1 + j, total))

/-- The pairs of an aligned task/result-text sequence whose text survives
the filter of main.py line 175 (nonempty and not a failure marker). -/
def survivors (pairs : List (TaskMeta × String)) : List (TaskMeta × String) :=
  pairs.filter (fun p => decide (p.2 ≠ "" ∧ p.2 ∉ markerStrings))

/-- The Subtitle Assembler: the entry-building slice of the collection
loop applied to an aligned task/result-text sequence in which every future
returned normally, with the counter starting at 1 (main.py line 155). -/
def assembleFromResults (pairs : List (TaskMeta × String)) : List String :=
  entriesOf (pairs.map (fun p => (p.1, Except.ok p.2))) 1

/-- The document text written at main.py line 192:
`"\n".join(srt_entries)`. -/
def documentOf (entries : List String) : String := pyJoin "\n" entries

/-- Everything `process_images_to_srt_core` exposes to its caller: the
returned flag, the two callback streams, and the state of the output file.
The local `srt_entries` list appears nowhere here. -/
def callerView (r : RunResult) :
    Bool × List LogEvent × List LogEvent × List (Nat × Nat) × Option String :=
  (r.success, r.logs, r.workerLogs, r.progress, r.written)

/-- Strict lexicographic order on lists of naturals. -/
def natKeyLt : List Nat → List Nat → Bool
  | [], [] => false
  | [], _ :: _ => true
  | _ :: _, [] => false
  | a :: as, b :: bs => if a < b then true else if b < a then false else natKeyLt as bs

/-- Modelled from the spec claim, not from the code: the key the claim
says the Task Builder sorts by, namely the four start fields converted to
integers and compared lexicographically. The code (main.py line 130)
compares the captured digit strings instead; this definition exists to
state that difference. -/
def claimIntKey (f : String) : List Nat :=
  match matchFilename f with
  | some g => [strToNat g.h1, strToNat g.m1, strToNat g.s1, strToNat g.ms1]
  | none => []

/-- Sample environment used to exercise the core at concrete inputs. -/
def sampleEnv (listing : List String) (writeOk : Bool) : Env :=
  { apiKey := "key", inputFolder := "in", outputFolder := "out"
    outputSrtFile := "o.srt", geminiModelName := "gemini-1.5-flash-latest"
    numThreads := 4, modelConfigOk := true, inputFolderIsDir := true
    listing := listing, writeOk := writeOk }

/-- Worker function whose every worker succeeds with the single text
`t`. -/
def sampleWorkerText (t : String) : Nat → WorkerOutcome := fun _ => .ok (.success [t])

/-- A concrete task, used to instantiate theorems at concrete inputs. -/
def sampleTask : TaskMeta :=
  { filename := "0_00_00_000__0_00_00_001.jpg"
    image_path := "in/0_00_00_000__0_00_00_001.jpg"
    start_time_str := "00:00:00,000", end_time_str := "00:00:00,001" }

/-- A second concrete task. -/
def sampleTaskB : TaskMeta :=
  { filename := "0_00_00_002__0_00_00_003.jpg"
    image_path := "in/0_00_00_002__0_00_00_003.jpg"
    start_time_str := "00:00:00,002", end_time_str := "00:00:00,003" }

/-- A concrete aligned task/result sequence: three tasks, the middle one
blocked, matching the spec scenario. -/
def samplePairs : List (TaskMeta × String) :=
  [(sampleTask, "hello"), (sampleTaskB, "[OCR Blocked]"), (sampleTaskB, "world")]

/-- Characters with equal code points are equal. -/
theorem charToNatInj {a b : Char} (h : a.toNat = b.toNat) : a = b := by
  have hb := Char.ofNat_toNat a
  rw [h, Char.ofNat_toNat] at hb
  exact hb.symm

theorem charsLt_irrefl : ∀ cs : List Char, charsLt cs cs = false
  | [] => rfl
  | c :: cs => by simp [charsLt, charsLt_irrefl cs]

theorem charsLt_asymm : ∀ {a b : List Char}, charsLt a b = true → charsLt b a = false
  | [], [], h => by simp [charsLt] at h
  | [], _ :: _, _ => rfl
  | _ :: _, [], h => by simp [charsLt] at h
  | a :: as, b :: bs, h => by
    simp only [charsLt] at h ⊢
    split_ifs at h ⊢ with h1 h2 h3 h4 <;> try omega
    all_goals first
      | rfl
      | exact charsLt_asymm h
      | simp_all

theorem charsLt_trans : ∀ {a b c : List Char},
    charsLt a b = true → charsLt b c = true → charsLt a c = true
  | [], [], _, h1, _ => by simp [charsLt] at h1
  | [], _ :: _, [], _, h2 => by simp [charsLt] at h2
  | [], _ :: _, _ :: _, _, _ => rfl
  | _ :: _, [], _, h1, _ => by simp [charsLt] at h1
  | _ :: _, _ :: _, [], _, h2 => by simp [charsLt] at h2
  | a :: as, b :: bs, c :: cs, h1, h2 => by
    simp only [charsLt] at h1 h2 ⊢
    split_ifs at h1 h2 ⊢ <;> first
      | rfl
      | omega
      | (exact charsLt_trans h1 h2)
      | simp_all

theorem charsLt_connex : ∀ {a b : List Char},
    charsLt a b = false → charsLt b a = false → a = b
  | [], [], _, _ => rfl
  | [], _ :: _, h1, _ => by simp [charsLt] at h1
  | _ :: _, [], _, h2 => by simp [charsLt] at h2
  | a :: as, b :: bs, h1, h2 => by
    simp only [charsLt] at h1 h2
    split_ifs at h1 h2 with hab hba <;> try simp_all
    have hc : a = b := charToNatInj (by omega)
    exact ⟨hc, charsLt_connex h1 h2⟩

theorem keyLt_irrefl : ∀ k : List (List Char), keyLt k k = false
  | [] => rfl
  | c :: cs => by simp [keyLt, charsLt_irrefl, keyLt_irrefl cs]

theorem keyLt_connex : ∀ {a b : List (List Char)},
    keyLt a b = false → keyLt b a = false → a = b
  | [], [], _, _ => rfl
  | [], _ :: _, h1, _ => by simp [keyLt] at h1
  | _ :: _, [], _, h2 => by simp [keyLt] at h2
  | a :: as, b :: bs, h1, h2 => by
    simp only [keyLt] at h1 h2
    split_ifs at h1 h2 with hab hba <;> try simp_all
    exact ⟨charsLt_connex hab hba, keyLt_connex h1 h2⟩

theorem keyLt_asymm : ∀ {a b : List (List Char)}, keyLt a b = true → keyLt b a = false
  | [], [], h => by simp [keyLt] at h
  | [], _ :: _, _ => rfl
  | _ :: _, [], h => by simp [keyLt] at h
  | a :: as, b :: bs, h => by
    simp only [keyLt] at h ⊢
    split_ifs at h ⊢ with h1 h2 h3 <;> first
      | rfl
      | exact keyLt_asymm h
      | simp_all [charsLt_asymm]

theorem keyLt_trans : ∀ {a b c : List (List Char)},
    keyLt a b = true → keyLt b c = true → keyLt a c = true
  | [], [], _, h1, _ => by simp [keyLt] at h1
  | [], _ :: _, [], _, h2 => by simp [keyLt] at h2
  | [], _ :: _, _ :: _, _, _ => rfl
  | _ :: _, [], _, h1, _ => by simp [keyLt] at h1
  | _ :: _, _ :: _, [], _, h2 => by simp [keyLt] at h2
  | a :: as, b :: bs, c :: cs, h1, h2 => by
    simp only [keyLt] at h1 h2 ⊢
    cases hab : charsLt a b with
    | true =>
      cases hbc : charsLt b c with
      | true => simp [charsLt_trans hab hbc]
      | false =>
        cases hcb : charsLt c b with
        | true => simp [hbc, hcb] at h2
        | false =>
          have hbceq : b = c := charsLt_connex hbc hcb
          subst hbceq
          simp [hab]
    | false =>
      cases hba : charsLt b a with
      | true => simp [hab, hba] at h1
      | false =>
        have habeq : a = b := charsLt_connex hab hba
        subst habeq
        rw [charsLt_irrefl] at h1
        simp only [if_false, Bool.false_eq_true] at h1
        cases hac : charsLt a c with
        | true => simp
        | false =>
          cases hca : charsLt c a with
          | true => simp [hac, hca] at h2
          | false =>
            simp only [hac, hca, if_false, Bool.false_eq_true] at h2 ⊢
            exact keyLt_trans h1 h2

theorem taggedLe_iff {p q : Nat × String} :
    taggedLeP p q ↔ (keyLt (sortKey p.2) (sortKey q.2) = true ∨
      (sortKey p.2 = sortKey q.2 ∧ p.1 ≤ q.1)) := by
  unfold taggedLeP taggedLe
  cases hpq : keyLt (sortKey p.2) (sortKey q.2) with
  | true => simp
  | false =>
    cases hqp : keyLt (sortKey q.2) (sortKey p.2) with
    | true =>
      simp only [if_false, if_true, Bool.false_eq_true, false_iff, Bool.false_eq_true]
      push_neg
      constructor
      · simp
      · intro heq
        rw [heq, keyLt_irrefl] at hqp
        cases hqp
    | false =>
      have heq := keyLt_connex hpq hqp
      simp [heq]

theorem taggedLeP_total : ∀ p q : Nat × String, taggedLeP p q ∨ taggedLeP q p := by
  intro p q
  cases hpq : keyLt (sortKey p.2) (sortKey q.2) with
  | true => exact Or.inl (taggedLe_iff.mpr (Or.inl hpq))
  | false =>
    cases hqp : keyLt (sortKey q.2) (sortKey p.2) with
    | true => exact Or.inr (taggedLe_iff.mpr (Or.inl hqp))
    | false =>
      have heq := keyLt_connex hpq hqp
      rcases Nat.le_total p.1 q.1 with h | h
      · exact Or.inl (taggedLe_iff.mpr (Or.inr ⟨heq, h⟩))
      · exact Or.inr (taggedLe_iff.mpr (Or.inr ⟨heq.symm, h⟩))

theorem taggedLeP_trans : ∀ p q r : Nat × String, taggedLeP p q → taggedLeP q r → taggedLeP p r := by
  intro p q r hpq hqr
  rw [taggedLe_iff] at hpq hqr ⊢
  rcases hpq with h1 | ⟨e1, i1⟩
  · rcases hqr with h2 | ⟨e2, i2⟩
    · exact Or.inl (keyLt_trans h1 h2)
    · exact Or.inl (e2 ▸ h1)
  · rcases hqr with h2 | ⟨e2, i2⟩
    · rw [e1]
      exact Or.inl h2
    · exact Or.inr ⟨e1.trans e2, Nat.le_trans i1 i2⟩

theorem digitsToNat_foldl (a : Nat) (cs : List Char) :
    cs.foldl (fun x c => 10 * x + digitVal c) a = a * 10 ^ cs.length + digitsToNat cs := by
  induction cs generalizing a with
  | nil => simp [digitsToNat]
  | cons c cs ih =>
    show List.foldl _ (10 * a + digitVal c) cs = _
    rw [ih]
    have hd : digitsToNat (c :: cs) = digitVal c * 10 ^ cs.length + digitsToNat cs := by
      show List.foldl _ (10 * 0 + digitVal c) cs = _
      rw [ih]
      ring_nf
    rw [hd]
    simp [List.length_cons]
    ring

theorem digitsToNat_append (xs ys : List Char) :
    digitsToNat (xs ++ ys) = digitsToNat xs * 10 ^ ys.length + digitsToNat ys := by
  unfold digitsToNat
  rw [List.foldl_append, digitsToNat_foldl]
  rfl

theorem digitVal_le_nine {c : Char} (h : isDigitChar c = true) : digitVal c ≤ 9 := by
  simp [isDigitChar] at h
  simp [digitVal]
  omega

theorem digitsToNat_lt (cs : List Char) (h : cs.all isDigitChar = true) :
    digitsToNat cs < 10 ^ cs.length := by
  induction cs with
  | nil => simp [digitsToNat]
  | cons c cs ih =>
    simp only [List.all_cons, Bool.and_eq_true] at h
    have hlt := ih h.2
    have hd9 := digitVal_le_nine h.1
    have hc : digitsToNat (c :: cs) = digitVal c * 10 ^ cs.length + digitsToNat cs := by
      show List.foldl _ (10 * 0 + digitVal c) cs = _
      rw [digitsToNat_foldl]
      ring_nf
    rw [hc, List.length_cons]
    calc digitVal c * 10 ^ cs.length + digitsToNat cs
        < digitVal c * 10 ^ cs.length + 10 ^ cs.length := by omega
      _ = (digitVal c + 1) * 10 ^ cs.length := by ring
      _ ≤ 10 * 10 ^ cs.length := Nat.mul_le_mul_right _ (by omega)
      _ = 10 ^ (cs.length + 1) := by ring

theorem digitsToNat_replicate_zero (k : Nat) : digitsToNat (List.replicate k '0') = 0 := by
  induction k with
  | zero => rfl
  | succ k ih =>
    rw [List.replicate_succ]
    show List.foldl _ (10 * 0 + digitVal '0') _ = 0
    have h0 : (10 * 0 + digitVal '0') = 0 := by decide
    rw [h0]
    exact ih

theorem digitVal_natDigit {n : Nat} (h : n < 10) : digitVal (natDigit n) = n := by
  interval_cases n <;> decide

theorem isDigitChar_natDigit {n : Nat} (h : n < 10) : isDigitChar (natDigit n) = true := by
  interval_cases n <;> decide

theorem natDigitsAux_spec : ∀ fuel n, n < fuel →
    digitsToNat (natDigitsAux fuel n) = n ∧
    natDigitsAux fuel n ≠ [] ∧
    (natDigitsAux fuel n).all isDigitChar = true := by
  intro fuel
  induction fuel with
  | zero => intro n h; omega
  | succ fuel ih =>
    intro n h
    by_cases h10 : n < 10
    · simp only [natDigitsAux, if_pos h10]
      refine ⟨?_, by simp, by simp [isDigitChar_natDigit h10]⟩
      show 10 * 0 + digitVal (natDigit n) = n
      rw [digitVal_natDigit h10]
      omega
    · have hrec : n / 10 < fuel := by
        have := Nat.div_lt_self (by omega : 0 < n) (by omega : 1 < 10)
        omega
      obtain ⟨hv, hne, hall⟩ := ih (n / 10) hrec
      simp only [natDigitsAux, if_neg h10]
      refine ⟨?_, by simp, ?_⟩
      · rw [digitsToNat_append, hv]
        have hdv : digitsToNat [natDigit (n % 10)] = n % 10 := by
          show 10 * 0 + digitVal (natDigit (n % 10)) = n % 10
          rw [digitVal_natDigit (Nat.mod_lt _ (by omega))]
          omega
        rw [hdv]
        simp
        omega
      · rw [List.all_append, hall]
        simp [isDigitChar_natDigit (Nat.mod_lt n (by omega : 0 < 10))]

theorem natDigits_toNat (n : Nat) : digitsToNat (natDigits n) = n :=
  (natDigitsAux_spec (n + 1) n (by omega)).1

theorem natDigits_ne_nil (n : Nat) : natDigits n ≠ [] :=
  (natDigitsAux_spec (n + 1) n (by omega)).2.1

theorem natDigits_all (n : Nat) : (natDigits n).all isDigitChar = true :=
  (natDigitsAux_spec (n + 1) n (by omega)).2.2

theorem natDigitsAux_length : ∀ fuel n k, n < fuel → n < 10 ^ (k + 1) →
    (natDigitsAux fuel n).length ≤ k + 1 := by
  intro fuel
  induction fuel with
  | zero => intro n k h; omega
  | succ fuel ih =>
    intro n k h hk
    by_cases h10 : n < 10
    · simp [natDigitsAux, if_pos h10]
    · simp only [natDigitsAux, if_neg h10]
      match k with
      | 0 => simp at hk; omega
      | k + 1 =>
        have hrec : n / 10 < fuel := by
          have := Nat.div_lt_self (by omega : 0 < n) (by omega : 1 < 10)
          omega
        have hdiv : n / 10 < 10 ^ (k + 1) := by
          rw [Nat.div_lt_iff_lt_mul (by omega : 0 < 10)]
          calc n < 10 ^ (k + 1 + 1) := hk
            _ = 10 ^ (k + 1) * 10 := by ring
        have := ih (n / 10) k hrec hdiv
        rw [List.length_append]
        simp
        omega

theorem natDigits_length_le {n k : Nat} (h : n < 10 ^ (k + 1)) :
    (natDigits n).length ≤ k + 1 :=
  natDigitsAux_length (n + 1) n k (by omega) h

theorem padZ_data (w : Nat) (s : String) :
    (padZ w s).data = List.replicate (w - s.data.length) '0' ++ s.data := by
  show (String.mk _ ++ s).data = _
  rw [String.data_append]

theorem padZ_length (w : Nat) (s : String) :
    (padZ w s).data.length = max w s.data.length := by
  rw [padZ_data]
  simp
  omega

theorem padZ_all (w : Nat) (s : String) (h : s.data.all isDigitChar = true) :
    (padZ w s).data.all isDigitChar = true := by
  rw [padZ_data, List.all_append, h]
  simp [List.all_eq_true, List.mem_replicate]
  exact Or.inr (by decide)

theorem padZ_value (w : Nat) (s : String) :
    digitsToNat (padZ w s).data = digitsToNat s.data := by
  rw [padZ_data, digitsToNat_append, digitsToNat_replicate_zero]
  simp

/-- The three facts about one rendered, zero-padded numeric field of
`format_srt_time`: it is all digits, it reparses to the value, and its
width is the requested width unless the value needs more digits. -/
theorem renderField_spec (w n : Nat) :
    strToNat (padZ w (natToString n)) = n ∧
    (padZ w (natToString n)).data.all isDigitChar = true ∧
    (padZ w (natToString n)).data.length = max w (natDigits n).length := by
  refine ⟨?_, ?_, ?_⟩
  · show digitsToNat _ = n
    rw [padZ_value]
    exact natDigits_toNat n
  · exact padZ_all _ _ (natDigits_all n)
  · exact padZ_length _ _

theorem all_takeWhile (p : Char → Bool) (l : List Char) :
    (l.takeWhile p).all p = true := by
  rw [List.all_eq_true]
  intro x hx
  exact List.mem_takeWhile_imp hx

theorem takeDigitsExact_spec {n : Nat} {cs pre rest : List Char}
    (h : takeDigitsExact n cs = some (pre, rest)) :
    pre.length = n ∧ pre.all isDigitChar = true := by
  simp only [takeDigitsExact] at h
  split at h
  · rename_i hcond
    rw [Bool.and_eq_true, decide_eq_true_eq] at hcond
    simp only [Option.some.injEq, Prod.mk.injEq] at h
    obtain ⟨hpre, _⟩ := h
    subst hpre
    exact hcond
  · cases h

theorem parseTs_spec {cs : List Char} {a b c d : String} {rest : List Char}
    (h : parseTs cs = some ((a, b, c, d), rest)) :
    a.data ≠ [] ∧ a.data.all isDigitChar = true ∧
    b.data.length = 2 ∧ b.data.all isDigitChar = true ∧
    c.data.length = 2 ∧ c.data.all isDigitChar = true ∧
    d.data.length = 3 ∧ d.data.all isDigitChar = true := by
  simp only [parseTs] at h
  split at h
  · cases h
  rename_i hEmpty
  split at h <;> try contradiction
  split at h <;> try contradiction
  rename_i mm r2 hmm
  split at h <;> try contradiction
  split at h <;> try contradiction
  rename_i ss r4 hss
  split at h <;> try contradiction
  split at h <;> try contradiction
  rename_i mss r6 hmss
  simp only [Option.some.injEq, Prod.mk.injEq] at h
  obtain ⟨⟨ha, hb, hc, hd⟩, _⟩ := h
  subst ha hb hc hd
  have hmm' := takeDigitsExact_spec hmm
  have hss' := takeDigitsExact_spec hss
  have hmss' := takeDigitsExact_spec hmss
  refine ⟨?_, all_takeWhile _ _, hmm'.1, hmm'.2, hss'.1, hss'.2, hmss'.1, hmss'.2⟩
  intro hnil
  rw [← List.isEmpty_iff] at hnil
  exact hEmpty hnil

theorem matchFilename_spec {f : String} {g : MatchGroups}
    (h : matchFilename f = some g) :
    g.h1.data ≠ [] ∧ g.h1.data.all isDigitChar = true ∧
    g.m1.data.length = 2 ∧ g.m1.data.all isDigitChar = true ∧
    g.s1.data.length = 2 ∧ g.s1.data.all isDigitChar = true ∧
    g.ms1.data.length = 3 ∧ g.ms1.data.all isDigitChar = true ∧
    g.h2.data ≠ [] ∧ g.h2.data.all isDigitChar = true ∧
    g.m2.data.length = 2 ∧ g.m2.data.all isDigitChar = true ∧
    g.s2.data.length = 2 ∧ g.s2.data.all isDigitChar = true ∧
    g.ms2.data.length = 3 ∧ g.ms2.data.all isDigitChar = true := by
  simp only [matchFilename] at h
  split at h <;> try contradiction
  rename_i p1 r1 hp1
  split at h <;> try contradiction
  split at h <;> try contradiction
  rename_i p2 r3 hp2
  split at h <;> try contradiction
  rename_i e hext
  simp only [Option.some.injEq] at h
  subst h
  obtain ⟨h1a, h1b, h1c, h1d, h1e, h1f, h1g, h1h⟩ := parseTs_spec hp1
  obtain ⟨h2a, h2b, h2c, h2d, h2e, h2f, h2g, h2h⟩ := parseTs_spec hp2
  exact ⟨h1a, h1b, h1c, h1d, h1e, h1f, h1g, h1h,
         h2a, h2b, h2c, h2d, h2e, h2f, h2g, h2h⟩

theorem renderField_exact {s : String} {w : Nat}
    (hlen : s.data.length = w) (hall : s.data.all isDigitChar = true) (hw : 0 < w) :
    (padZ w (natToString (strToNat s))).data.length = w := by
  have hv : strToNat s < 10 ^ w := by
    have := digitsToNat_lt s.data hall
    rw [hlen] at this
    exact this
  obtain ⟨k, rfl⟩ : ∃ k, w = k + 1 := ⟨w - 1, by omega⟩
  have hle : (natDigits (strToNat s)).length ≤ k + 1 := natDigits_length_le hv
  rw [(renderField_spec (k + 1) (strToNat s)).2.2]
  omega

/-- C6: every filename accepted by the pattern decodes to eight numeric
fields whose `format_srt_time` rendering is the `HH:MM:SS,mmm` form:
all-digit fields carrying the same numeric values, hours zero-padded to at
least two digits and widening (never truncating) past 99, minutes and
seconds exactly two digits, milliseconds exactly three. -/
theorem filename_decode_render {f : String} {g : MatchGroups}
    (hmatch : matchFilename f = some g) :
    (∃ A B C D : String,
      format_srt_time g.h1 g.m1 g.s1 g.ms1 = A ++ ":" ++ B ++ ":" ++ C ++ "," ++ D ∧
      A.data.all isDigitChar = true ∧ strToNat A = strToNat g.h1 ∧
      A.data.length = max 2 (natDigits (strToNat g.h1)).length ∧ 2 ≤ A.data.length ∧
      B.data.all isDigitChar = true ∧ strToNat B = strToNat g.m1 ∧ B.data.length = 2 ∧
      C.data.all isDigitChar = true ∧ strToNat C = strToNat g.s1 ∧ C.data.length = 2 ∧
      D.data.all isDigitChar = true ∧ strToNat D = strToNat g.ms1 ∧ D.data.length = 3) ∧
    (∃ A B C D : String,
      format_srt_time g.h2 g.m2 g.s2 g.ms2 = A ++ ":" ++ B ++ ":" ++ C ++ "," ++ D ∧
      A.data.all isDigitChar = true ∧ strToNat A = strToNat g.h2 ∧
      A.data.length = max 2 (natDigits (strToNat g.h2)).length ∧ 2 ≤ A.data.length ∧
      B.data.all isDigitChar = true ∧ strToNat B = strToNat g.m2 ∧ B.data.length = 2 ∧
      C.data.all isDigitChar = true ∧ strToNat C = strToNat g.s2 ∧ C.data.length = 2 ∧
      D.data.all isDigitChar = true ∧ strToNat D = strToNat g.ms2 ∧ D.data.length = 3) := by
  obtain ⟨_, _, hm1l, hm1a, hs1l, hs1a, hms1l, hms1a,
          _, _, hm2l, hm2a, hs2l, hs2a, hms2l, hms2a⟩ := matchFilename_spec hmatch
  constructor
  · refine ⟨padZ 2 (natToString (strToNat g.h1)), padZ 2 (natToString (strToNat g.m1)),
      padZ 2 (natToString (strToNat g.s1)), padZ 3 (natToString (strToNat g.ms1)),
      rfl, ?_, ?_, ?_, ?_, ?_, ?_, ?_, ?_, ?_, ?_, ?_, ?_, ?_⟩
    · exact (renderField_spec 2 _).2.1
    · exact (renderField_spec 2 _).1
    · exact (renderField_spec 2 _).2.2
    · rw [(renderField_spec 2 _).2.2]; omega
    · exact (renderField_spec 2 _).2.1
    · exact (renderField_spec 2 _).1
    · exact renderField_exact hm1l hm1a (by omega)
    · exact (renderField_spec 2 _).2.1
    · exact (renderField_spec 2 _).1
    · exact renderField_exact hs1l hs1a (by omega)
    · exact (renderField_spec 3 _).2.1
    · exact (renderField_spec 3 _).1
    · exact renderField_exact hms1l hms1a (by omega)
  · refine ⟨padZ 2 (natToString (strToNat g.h2)), padZ 2 (natToString (strToNat g.m2)),
      padZ 2 (natToString (strToNat g.s2)), padZ 3 (natToString (strToNat g.ms2)),
      rfl, ?_, ?_, ?_, ?_, ?_, ?_, ?_, ?_, ?_, ?_, ?_, ?_, ?_⟩
    · exact (renderField_spec 2 _).2.1
    · exact (renderField_spec 2 _).1
    · exact (renderField_spec 2 _).2.2
    · rw [(renderField_spec 2 _).2.2]; omega
    · exact (renderField_spec 2 _).2.1
    · exact (renderField_spec 2 _).1
    · exact renderField_exact hm2l hm2a (by omega)
    · exact (renderField_spec 2 _).2.1
    · exact (renderField_spec 2 _).1
    · exact renderField_exact hs2l hs2a (by omega)
    · exact (renderField_spec 3 _).2.1
    · exact (renderField_spec 3 _).1
    · exact renderField_exact hms2l hms2a (by omega)

theorem progressOf_succ (p0 total n : Nat) :
    progressOf p0 total (n + 1) = (p0 + 1, total) :: progressOf (p0 + 1) total n := by
  unfold progressOf
  rw [List.range_succ_eq_map, List.map_cons, List.map_map]
  congr 1
  apply List.map_congr_left
  intro j _
  simp [Function.comp]
  omega

theorem runLoop_eq (total : Nat) :
    ∀ (ps : List (TaskMeta × Except Unit String)) (idx : Nat) (st : LoopOut),
    runLoop total idx st ps =
      { entries := st.entries ++ entriesOf ps st.counter
        counter := st.counter + keptCount ps
        processed := st.processed + ps.length
        logs := st.logs ++ logsOf total idx ps
        progress := st.progress ++ progressOf st.processed total ps.length } := by
  intro ps
  induction ps with
  | nil =>
    intro idx st
    simp [runLoop, entriesOf, keptCount, logsOf, progressOf]
  | cons p rest ih =>
    intro idx st
    obtain ⟨m, r⟩ := p
    show runLoop total (idx + 1) (stepTask total idx m r st) rest = _
    rw [ih]
    cases r with
    | error e =>
      simp only [stepTask, entriesOf, keptCount, logsOf, List.length_cons,
        progressOf_succ, LoopOut.mk.injEq]
      and_intros <;> first
        | rfl
        | trivial
        | omega
        | simp
    | ok t =>
      by_cases hk : t ≠ "" ∧ t ∉ markerStrings
      · simp only [stepTask, if_pos hk, entriesOf, keptCount, logsOf, List.length_cons,
          progressOf_succ, LoopOut.mk.injEq]
        and_intros <;> first
          | rfl
          | trivial
          | omega
          | simp
      · simp only [stepTask, if_neg hk, entriesOf, keptCount, logsOf, List.length_cons,
          progressOf_succ, LoopOut.mk.injEq]
        and_intros <;> first
          | rfl
          | trivial
          | omega
          | simp

theorem keptCount_append (xs ys : List (TaskMeta × Except Unit String)) :
    keptCount (xs ++ ys) = keptCount xs + keptCount ys := by
  induction xs with
  | nil => simp [keptCount]
  | cons p rest ih =>
    obtain ⟨m, r⟩ := p
    cases r with
    | error e => simpa [keptCount] using ih
    | ok t =>
      by_cases hk : t ≠ "" ∧ t ∉ markerStrings
      · simp only [List.cons_append, keptCount, if_pos hk, List.append_eq]
        rw [ih]
        omega
      · simpa [keptCount, if_neg hk] using ih

theorem entriesOf_append (xs ys : List (TaskMeta × Except Unit String)) :
    ∀ c, entriesOf (xs ++ ys) c = entriesOf xs c ++ entriesOf ys (c + keptCount xs) := by
  induction xs with
  | nil =>
    intro c
    simp [entriesOf, keptCount]
  | cons p rest ih =>
    intro c
    obtain ⟨m, r⟩ := p
    cases r with
    | error e =>
      simp only [List.cons_append, entriesOf, keptCount, List.append_eq]
      exact ih c
    | ok t =>
      by_cases hk : t ≠ "" ∧ t ∉ markerStrings
      · simp only [List.cons_append, entriesOf, keptCount, if_pos hk, List.append_eq]
        rw [ih (c + 1)]
        have harith : c + 1 + keptCount rest = c + (keptCount rest + 1) := by omega
        rw [harith]
      · simp only [List.cons_append, entriesOf, keptCount, if_neg hk, List.append_eq]
        exact ih c

theorem logsOf_append (total : Nat) (xs ys : List (TaskMeta × Except Unit String)) :
    ∀ idx, logsOf total idx (xs ++ ys) =
      logsOf total idx xs ++ logsOf total (idx + xs.length) ys := by
  induction xs with
  | nil =>
    intro idx
    simp [logsOf]
  | cons p rest ih =>
    intro idx
    obtain ⟨m, r⟩ := p
    simp only [List.cons_append, logsOf, List.append_eq]
    rw [ih (idx + 1)]
    have harith : idx + 1 + rest.length = idx + (rest.length + 1) := by omega
    rw [harith]
    simp [List.append_assoc, List.length_cons]

theorem tagFrom_length {α} (l : List α) : ∀ i, (tagFrom i l).length = l.length := by
  induction l with
  | nil => intro i; rfl
  | cons a l ih => intro i; simp [tagFrom, ih (i + 1)]

theorem tagFrom_map_snd {α} (l : List α) : ∀ i, (tagFrom i l).map Prod.snd = l := by
  induction l with
  | nil => intro i; rfl
  | cons a l ih => intro i; simp [tagFrom, ih (i + 1)]

theorem tagFrom_getElem? {α} (l : List α) : ∀ (i k : Nat),
    (tagFrom i l)[k]? = l[k]?.map (fun a => (i + k, a)) := by
  induction l with
  | nil => intro i k; simp [tagFrom]
  | cons a l ih =>
    intro i k
    cases k with
    | zero => simp [tagFrom]
    | succ k =>
      simp only [tagFrom, List.getElem?_cons_succ]
      rw [ih (i + 1) k]
      cases l[k]? with
      | none => rfl
      | some x =>
        show some (i + 1 + k, x) = some (i + (k + 1), x)
        have harith : i + 1 + k = i + (k + 1) := by omega
        rw [harith]

theorem tagFrom_shift {α} (l : List α) : ∀ i,
    tagFrom (i + 1) l = (tagFrom i l).map (fun q => (q.1 + 1, q.2)) := by
  induction l with
  | nil => intro i; rfl
  | cons a l ih => intro i; simp [tagFrom, ih (i + 1)]

theorem entriesOf_assemble (pairs : List (TaskMeta × String)) : ∀ c,
    entriesOf (pairs.map (fun p => (p.1, Except.ok p.2))) c =
      (tagFrom 0 (survivors pairs)).map (fun q => mkSrtEntry (c + q.1) q.2.1 q.2.2) := by
  induction pairs with
  | nil => intro c; simp [entriesOf, survivors, tagFrom]
  | cons p rest ih =>
    intro c
    obtain ⟨m, t⟩ := p
    by_cases hk : t ≠ "" ∧ t ∉ markerStrings
    · simp only [List.map_cons, entriesOf, if_pos hk]
      rw [ih (c + 1)]
      have hs : survivors ((m, t) :: rest) = (m, t) :: survivors rest := by
        simp [survivors, hk]
      rw [hs]
      simp only [tagFrom, List.map_cons]
      congr 1
      rw [show tagFrom 1 (survivors rest) =
            (tagFrom 0 (survivors rest)).map (fun q => (q.1 + 1, q.2)) from
          tagFrom_shift (survivors rest) 0]
      rw [List.map_map]
      apply List.map_congr_left
      intro q _
      simp only [Function.comp]
      have harith : c + (q.1 + 1) = c + 1 + q.1 := by omega
      rw [harith]
    · simp only [List.map_cons, entriesOf, if_neg hk]
      rw [ih c]
      have hs : survivors ((m, t) :: rest) = survivors rest := by simp [survivors, hk]
      rw [hs]

theorem assembleFromResults_length (pairs : List (TaskMeta × String)) :
    (assembleFromResults pairs).length = (survivors pairs).length := by
  rw [assembleFromResults, entriesOf_assemble pairs 1, List.length_map,
    tagFrom_length (survivors pairs) 0]

theorem assembleFromResults_getElem (pairs : List (TaskMeta × String)) (i : Nat) :
    (assembleFromResults pairs)[i]? =
      ((survivors pairs)[i]?).map (fun p => mkSrtEntry (i + 1) p.1 p.2) := by
  rw [assembleFromResults, entriesOf_assemble pairs 1]
  rw [List.getElem?_map, tagFrom_getElem? (survivors pairs) 0 i]
  cases (survivors pairs)[i]? with
  | none => rfl
  | some p =>
    show some (mkSrtEntry (1 + (0 + i)) p.1 p.2) = some (mkSrtEntry (i + 1) p.1 p.2)
    have harith : 1 + (0 + i) = i + 1 := by omega
    rw [harith]

theorem pyJoin_entry_split : ∀ l : List String, l ≠ [] →
    pyJoin "\n" (l.map (fun b => b ++ "\n")) = pyJoin "\n\n" l ++ "\n"
  | [], h => absurd rfl h
  | [x], _ => rfl
  | x :: y :: rest, _ => by
    show (x ++ "\n") ++ "\n" ++ pyJoin "\n" ((y :: rest).map (fun b => b ++ "\n")) = _
    rw [pyJoin_entry_split (y :: rest) (by simp)]
    show _ = x ++ "\n\n" ++ pyJoin "\n\n" (y :: rest) ++ "\n"
    have hnl : ("\n" : String) ++ "\n" = "\n\n" := by decide
    rw [String.append_assoc x "\n" "\n", hnl, ← String.append_assoc]

theorem fillSlots_lookup {ρ : Type} (futures : List ρ) :
    ∀ (order : List Nat) (k : Nat),
      fillSlots futures order k = if k ∈ order then futures[k]? else none := by
  intro order
  induction order with
  | nil => intro k; simp [fillSlots]
  | cons j rest ih =>
    intro k
    by_cases hkj : k = j
    · subst hkj
      simp [fillSlots]
    · simp only [fillSlots, if_neg hkj, ih k, List.mem_cons]
      by_cases hk : k ∈ rest
      · simp [hk, hkj]
      · simp [hk, hkj]

theorem schedulerRun_collects {ρ : Type} (recognize : TaskMeta → ρ) (metas : List TaskMeta)
    (order : List Nat) (hperm : order.Perm (List.range metas.length)) :
    schedulerRun recognize metas order = (metas.map recognize).map some := by
  unfold schedulerRun collectOrdered submitAll
  apply List.ext_getElem?
  intro k
  rw [List.getElem?_map, List.getElem?_map, List.getElem?_map]
  by_cases hk : k < metas.length
  · rw [List.getElem?_range hk, List.getElem?_eq_getElem hk]
    show some (fillSlots (metas.map recognize) order k) = some (some (recognize metas[k]))
    rw [fillSlots_lookup]
    have hmem : k ∈ order := hperm.mem_iff.mpr (List.mem_range.mpr hk)
    rw [if_pos hmem, List.getElem?_map, List.getElem?_eq_getElem hk]
    rfl
  · have h1 : (List.range metas.length)[k]? = none := by
      rw [List.getElem?_eq_none]
      simpa using hk
    have h2 : metas[k]? = none := by
      rw [List.getElem?_eq_none]
      omega
    rw [h1, h2]
    rfl

theorem sortedTagged_perm (listing : List String) :
    (sortedTagged listing).Perm (tagFrom 0 (matchedFiles listing)) :=
  List.perm_insertionSort taggedLeP _

theorem sortedMatched_perm (listing : List String) :
    (sortedMatched listing).Perm (matchedFiles listing) := by
  have h := (sortedTagged_perm listing).map Prod.snd
  rwa [tagFrom_map_snd] at h

theorem sortedMatched_length (listing : List String) :
    (sortedMatched listing).length = (matchedFiles listing).length :=
  (sortedMatched_perm listing).length_eq

theorem mainMetas_length (env : Env) :
    (mainMetas env).length = (matchedFiles env.listing).length := by
  rw [mainMetas, List.length_map, sortedMatched_length]

theorem mainPairs_length (env : Env) (worker : Nat → WorkerOutcome) :
    (mainPairs env worker).length = (mainMetas env).length := by
  rw [mainPairs, List.length_map, tagFrom_length]

theorem skipLogs_shape {listing : List String} {e : LogEvent}
    (h : e ∈ skipLogsOf listing) : ∃ f, e = LogEvent.skipPattern f := by
  rw [skipLogsOf, List.mem_filterMap] at h
  obtain ⟨f, _, hf⟩ := h
  by_cases hc : ((matchFilename f).isNone && endsJpgOrJpeg f) = true
  · rw [if_pos hc] at hf
    exact ⟨f, (Option.some.inj hf).symm⟩
  · rw [if_neg hc] at hf
    cases hf

theorem coreRun_apiKeyMissing (env : Env) (worker : Nat → WorkerOutcome)
    (h : env.apiKey = "") :
    coreRun env worker =
      { success := false
        logs := [LogEvent.startBanner env.numThreads env.inputFolder env.outputFolder
          env.outputSrtFile env.geminiModelName, LogEvent.apiKeyMissing]
        workerLogs := [], progress := [], tasks := [], entries := [], written := none
        outputDirCreated := false, filesEnumerated := false, workersStarted := false } := by
  simp [coreRun, h]

theorem coreRun_configError (env : Env) (worker : Nat → WorkerOutcome)
    (h1 : env.apiKey ≠ "") (h2 : env.modelConfigOk = false) :
    coreRun env worker =
      { success := false
        logs := [LogEvent.startBanner env.numThreads env.inputFolder env.outputFolder
          env.outputSrtFile env.geminiModelName, LogEvent.configError]
        workerLogs := [], progress := [], tasks := [], entries := [], written := none
        outputDirCreated := false, filesEnumerated := false, workersStarted := false } := by
  simp [coreRun, h1, h2]

theorem coreRun_inputNotFound (env : Env) (worker : Nat → WorkerOutcome)
    (h1 : env.apiKey ≠ "") (h2 : env.modelConfigOk = true)
    (h3 : env.inputFolderIsDir = false) :
    coreRun env worker =
      { success := false
        logs := [LogEvent.startBanner env.numThreads env.inputFolder env.outputFolder
          env.outputSrtFile env.geminiModelName, LogEvent.inputNotFound env.inputFolder]
        workerLogs := [], progress := [], tasks := [], entries := [], written := none
        outputDirCreated := false, filesEnumerated := false, workersStarted := false } := by
  simp [coreRun, h1, h2, h3]

theorem coreRun_noMatch (env : Env) (worker : Nat → WorkerOutcome)
    (h1 : env.apiKey ≠ "") (h2 : env.modelConfigOk = true)
    (h3 : env.inputFolderIsDir = true) (hnm : matchedFiles env.listing = []) :
    coreRun env worker =
      { success := false
        logs := [LogEvent.startBanner env.numThreads env.inputFolder env.outputFolder
            env.outputSrtFile env.geminiModelName]
          ++ skipLogsOf env.listing ++ [LogEvent.noImagesFound]
        workerLogs := [], progress := [(0, 0)], tasks := [], entries := [], written := none
        outputDirCreated := true, filesEnumerated := true, workersStarted := false } := by
  simp [coreRun, h1, h2, h3, hnm]

theorem coreRun_main (env : Env) (worker : Nat → WorkerOutcome)
    (hkey : env.apiKey ≠ "") (hmodel : env.modelConfigOk = true)
    (hdir : env.inputFolderIsDir = true) (hne : matchedFiles env.listing ≠ []) :
    coreRun env worker =
      { success := env.writeOk
        logs := [LogEvent.startBanner env.numThreads env.inputFolder env.outputFolder
            env.outputSrtFile env.geminiModelName]
          ++ skipLogsOf env.listing ++ [LogEvent.foundCount (mainMetas env).length]
          ++ (mainLoop env worker).logs
          ++ (if env.writeOk then
                [LogEvent.writeSuccess (outPath env),
                 LogEvent.entriesWritten (mainLoop env worker).entries.length]
              else [LogEvent.writeError (outPath env)])
        workerLogs := mainWorkerLogs env worker
        progress := (0, (mainMetas env).length) :: (mainLoop env worker).progress
        tasks := mainMetas env
        entries := (mainLoop env worker).entries
        written := if env.writeOk then some (pyJoin "\n" (mainLoop env worker).entries)
                   else none
        outputDirCreated := true, filesEnumerated := true, workersStarted := true } := by
  have hie : (matchedFiles env.listing).isEmpty = false := by
    rw [List.isEmpty_eq_false]
    exact hne
  have hlen : ¬ ((mainMetas env).length = 0) := by
    rw [mainMetas_length, List.length_eq_zero]
    exact hne
  by_cases hw : env.writeOk
  · simp [coreRun, hkey, hmodel, hdir, hie, hlen, hw]
  · simp [coreRun, hkey, hmodel, hdir, hie, hlen, hw]

theorem mainLoop_eq (env : Env) (worker : Nat → WorkerOutcome) :
    mainLoop env worker =
      { entries := entriesOf (mainPairs env worker) 1
        counter := 1 + keptCount (mainPairs env worker)
        processed := (mainPairs env worker).length
        logs := logsOf (mainMetas env).length 0 (mainPairs env worker)
        progress := progressOf 0 (mainMetas env).length (mainPairs env worker).length } := by
  rw [mainLoop, runLoop_eq]
  simp [loopInit]

/-- C1: for every list of tasks, every worker count W at least 1, and
every completion order of the workers (any permutation of the task
indices), the Batch Scheduler's collected result sequence has exactly one
slot per task, and the slot at index i holds the recognition outcome of
task i: pairing and output order equal the input task order. -/
theorem scheduler_ordered_results {ρ : Type} (recognize : TaskMeta → ρ)
    (metas : List TaskMeta) (W : Nat) (hW : 1 ≤ W) (order : List Nat)
    (hperm : order.Perm (List.range metas.length)) :
    (schedulerRun recognize metas order).length = metas.length ∧
    ∀ i (hi : i < metas.length),
      (schedulerRun recognize metas order)[i]? = some (some (recognize metas[i])) := by
  rw [schedulerRun_collects recognize metas order hperm]
  constructor
  · simp
  · intro i hi
    rw [List.getElem?_map, List.getElem?_map, List.getElem?_eq_getElem hi]
    rfl

/-- Witness for C1: two concrete tasks collected under the reversed
completion order with one worker still yield the results aligned with the
task order. -/
theorem scheduler_ordered_results_witness :
    (schedulerRun TaskMeta.filename [sampleTask, sampleTaskB] [1, 0]).length = 2 ∧
    (schedulerRun TaskMeta.filename [sampleTask, sampleTaskB] [1, 0])[0]? =
      some (some "0_00_00_000__0_00_00_001.jpg") ∧
    (schedulerRun TaskMeta.filename [sampleTask, sampleTaskB] [1, 0])[1]? =
      some (some "0_00_00_002__0_00_00_003.jpg") := by
  have h := scheduler_ordered_results TaskMeta.filename [sampleTask, sampleTaskB] 1
    (by omega) [1, 0] (by decide)
  refine ⟨h.1, ?_, ?_⟩
  · have h0 := h.2 0 (by decide)
    simpa [sampleTask] using h0
  · have h1 := h.2 1 (by decide)
    simpa [sampleTaskB] using h1

/-- C2 counterexample: the Task Builder does not sort by the claimed
integer tuples. The sort key of main.py line 130 is the tuple of captured
digit strings, so the file with hours field "10" sorts before the file
with hours field "9", although 9 < 10 as integers. -/
theorem taskBuilder_not_int_sorted :
    sortedMatched ["9_00_00_000__0_00_00_000_a.jpg", "10_00_00_000__0_00_00_000_a.jpg"] =
      ["10_00_00_000__0_00_00_000_a.jpg", "9_00_00_000__0_00_00_000_a.jpg"] ∧
    claimIntKey "10_00_00_000__0_00_00_000_a.jpg" = [10, 0, 0, 0] ∧
    claimIntKey "9_00_00_000__0_00_00_000_a.jpg" = [9, 0, 0, 0] ∧
    ¬ (sortedMatched ["9_00_00_000__0_00_00_000_a.jpg",
          "10_00_00_000__0_00_00_000_a.jpg"]).Pairwise
        (fun a b => natKeyLt (claimIntKey b) (claimIntKey a) = false) := by
  refine ⟨by decide, by decide, by decide, by decide⟩

/-- C2 amended: the Task Builder's output is a permutation of the matched
filenames, sorted ascending by the tuple of the four captured start-time
digit strings compared lexicographically as strings (Python tuple
comparison; this equals the integer comparison whenever the hour strings
have equal width, but not in general), and the sort is stable: whenever
two files have equal key tuples, they keep their enumeration order. -/
theorem taskBuilder_sorted_stable (listing : List String) :
    (sortedMatched listing).Perm (matchedFiles listing) ∧
    (sortedMatched listing).Pairwise
      (fun a b => keyLt (sortKey b) (sortKey a) = false) ∧
    (sortedTagged listing).Pairwise
      (fun p q => keyLt (sortKey p.2) (sortKey q.2) = true ∨
        (sortKey p.2 = sortKey q.2 ∧ p.1 ≤ q.1)) := by
  have hsorted : (sortedTagged listing).Pairwise taggedLeP := by
    haveI : IsTotal (Nat × String) taggedLeP := ⟨taggedLeP_total⟩
    haveI : IsTrans (Nat × String) taggedLeP := ⟨taggedLeP_trans⟩
    exact List.sorted_insertionSort taggedLeP _
  have hiff : (sortedTagged listing).Pairwise
      (fun p q => keyLt (sortKey p.2) (sortKey q.2) = true ∨
        (sortKey p.2 = sortKey q.2 ∧ p.1 ≤ q.1)) :=
    hsorted.imp (fun h => taggedLe_iff.mp h)
  refine ⟨sortedMatched_perm listing, ?_, hiff⟩
  apply List.Pairwise.map Prod.snd
    (fun p q hpq => ?_) hiff
  rcases hpq with hlt | ⟨heq, _⟩
  · exact keyLt_asymm hlt
  · rw [← heq]
    exact keyLt_irrefl _

/-- Witness for C2's amended theorem at the spec's two-file scenario:
start orders 00_00_01_000 and 00_00_00_500 sort to the 500 one first, and
equal-key files keep listing order. -/
theorem taskBuilder_sorted_stable_witness :
    (sortedMatched ["0_00_01_000__0_00_02_000.jpg", "0_00_00_500__0_00_01_000.jpg"]).Perm
      (matchedFiles ["0_00_01_000__0_00_02_000.jpg", "0_00_00_500__0_00_01_000.jpg"]) ∧
    sortedMatched ["0_00_01_000__0_00_02_000.jpg", "0_00_00_500__0_00_01_000.jpg"] =
      ["0_00_00_500__0_00_01_000.jpg", "0_00_01_000__0_00_02_000.jpg"] ∧
    (sortedTagged ["0_00_01_000__0_00_02_000.jpg", "0_00_00_500__0_00_01_000.jpg"]).Pairwise
      (fun p q => keyLt (sortKey p.2) (sortKey q.2) = true ∨
        (sortKey p.2 = sortKey q.2 ∧ p.1 ≤ q.1)) := by
  have h := taskBuilder_sorted_stable
    ["0_00_01_000__0_00_02_000.jpg", "0_00_00_500__0_00_01_000.jpg"]
  exact ⟨h.1, by decide, h.2.2⟩

/-- C3 counterexample: with one task the core emits the progress events
(0,1) then (1,1): an initial (0, N) event precedes the per-task events
(main.py line 152), so the event list is not "exactly one event per task
with completed running from 1 to N". -/
theorem progress_initial_event_cex :
    (coreRun (sampleEnv ["0_00_00_000__0_00_00_001.jpg"] true)
        (sampleWorkerText "hi")).tasks.length = 1 ∧
    (coreRun (sampleEnv ["0_00_00_000__0_00_00_001.jpg"] true)
        (sampleWorkerText "hi")).progress = [(0, 1), (1, 1)] ∧
    (coreRun (sampleEnv ["0_00_00_000__0_00_00_001.jpg"] true)
        (sampleWorkerText "hi")).progress ≠ [(1, 1)] := by
  refine ⟨by decide, by decide, by decide⟩

/-- C3 amended: for N > 0 matched files the progress events are an
initial (0, N) followed by exactly one event per task, completed strictly
increasing 1..N with the total fixed at N, ending at (N, N); for N = 0
exactly one (0, 0) event is emitted and no workers are started. -/
theorem progress_events_amended (env : Env) (worker : Nat → WorkerOutcome)
    (hkey : env.apiKey ≠ "") (hmodel : env.modelConfigOk = true)
    (hdir : env.inputFolderIsDir = true) :
    (matchedFiles env.listing ≠ [] →
      (coreRun env worker).progress =
        (0, (matchedFiles env.listing).length) ::
          (List.range (matchedFiles env.listing).length).map
            (fun j => (j + 1, (matchedFiles env.listing).length)) ∧
      (coreRun env worker).workersStarted = true) ∧
    (matchedFiles env.listing = [] →
      (coreRun env worker).progress = [(0, 0)] ∧
      (coreRun env worker).workersStarted = false) := by
  constructor
  · intro hne
    rw [coreRun_main env worker hkey hmodel hdir hne]
    refine ⟨?_, rfl⟩
    show (0, (mainMetas env).length) :: (mainLoop env worker).progress = _
    simp only [mainLoop_eq]
    rw [mainPairs_length, mainMetas_length]
    unfold progressOf
    congr 1
    apply List.map_congr_left
    intro j _
    have harith : 0 + 1 + j = j + 1 := by omega
    rw [harith]
  · intro hnm
    rw [coreRun_noMatch env worker hkey hmodel hdir hnm]
    exact ⟨rfl, rfl⟩

/-- Witness for C3's amended theorem: a two-task run emits
(0,2), (1,2), (2,2); a run over a listing with no matching file emits the
single event (0,0) and starts no workers. -/
theorem progress_events_amended_witness :
    (coreRun (sampleEnv ["0_00_00_000__0_00_00_001.jpg", "0_00_00_002__0_00_00_003.jpg"] true)
        (sampleWorkerText "hi")).progress = [(0, 2), (1, 2), (2, 2)] ∧
    (coreRun (sampleEnv ["x.txt"] true) (sampleWorkerText "hi")).progress = [(0, 0)] ∧
    (coreRun (sampleEnv ["x.txt"] true) (sampleWorkerText "hi")).workersStarted = false := by
  have h1 := (progress_events_amended
    (sampleEnv ["0_00_00_000__0_00_00_001.jpg", "0_00_00_002__0_00_00_003.jpg"] true)
    (sampleWorkerText "hi") (by decide) (by decide) (by decide)).1 (by decide)
  have h2 := (progress_events_amended (sampleEnv ["x.txt"] true) (sampleWorkerText "hi")
    (by decide) (by decide) (by decide)).2 (by decide)
  refine ⟨?_, h2.1, h2.2⟩
  rw [h1.1]
  decide

/-- C4: for every aligned task/result sequence, the assembler emits one
entry per surviving pair (text nonempty and not a failure marker), in task
order, with gapless indices 1..K; each entry is the index line, the
"start --> end" line, then the text with a trailing newline; and the
assembled document is the blocks joined by a blank line. -/
theorem assembler_gapless_blocks (pairs : List (TaskMeta × String)) :
    (assembleFromResults pairs).length = (survivors pairs).length ∧
    (∀ i, i < (survivors pairs).length →
      (assembleFromResults pairs)[i]? =
        ((survivors pairs)[i]?).map (fun p => mkSrtEntry (i + 1) p.1 p.2)) ∧
    (∀ i m t, (survivors pairs)[i]? = some (m, t) →
      (assembleFromResults pairs)[i]? =
        some (natToString (i + 1) ++ "\n" ++ m.start_time_str ++ " --> " ++ m.end_time_str
          ++ "\n" ++ t ++ "\n")) ∧
    (survivors pairs ≠ [] →
      documentOf (assembleFromResults pairs) =
        pyJoin "\n\n" ((tagFrom 0 (survivors pairs)).map
          (fun q => mkBlock (q.1 + 1) q.2.1 q.2.2)) ++ "\n") := by
  refine ⟨assembleFromResults_length pairs, ?_, ?_, ?_⟩
  · intro i _
    exact assembleFromResults_getElem pairs i
  · intro i m t hsome
    rw [assembleFromResults_getElem pairs i, hsome]
    rfl
  · intro hne
    rw [documentOf, assembleFromResults, entriesOf_assemble pairs 1]
    have hmap : (tagFrom 0 (survivors pairs)).map (fun q => mkSrtEntry (1 + q.1) q.2.1 q.2.2)
        = ((tagFrom 0 (survivors pairs)).map (fun q => mkBlock (q.1 + 1) q.2.1 q.2.2)).map
            (fun b => b ++ "\n") := by
      rw [List.map_map]
      apply List.map_congr_left
      intro q _
      show mkSrtEntry (1 + q.1) q.2.1 q.2.2 = mkBlock (q.1 + 1) q.2.1 q.2.2 ++ "\n"
      rw [mkSrtEntry]
      have harith : 1 + q.1 = q.1 + 1 := by omega
      rw [harith]
    rw [hmap]
    apply pyJoin_entry_split
    intro hnil
    have hlen := congrArg List.length hnil
    rw [List.length_map, tagFrom_length (survivors pairs) 0] at hlen
    simp only [List.length_nil] at hlen
    exact hne (List.length_eq_zero.mp hlen)

/-- Witness for C4 at the spec scenario: three tasks with the middle one
blocked assemble to exactly two entries indexed 1 and 2, and the document
separates the two blocks by a blank line. -/
theorem assembler_gapless_blocks_witness :
    (assembleFromResults samplePairs).length = (survivors samplePairs).length ∧
    assembleFromResults samplePairs =
      ["1\n00:00:00,000 --> 00:00:00,001\nhello\n",
       "2\n00:00:00,002 --> 00:00:00,003\nworld\n"] ∧
    documentOf (assembleFromResults samplePairs) =
      "1\n00:00:00,000 --> 00:00:00,001\nhello\n\n2\n00:00:00,002 --> 00:00:00,003\nworld\n" := by
  have h := assembler_gapless_blocks samplePairs
  exact ⟨h.1, by decide, by decide⟩

/-- C5: every provider exception class is caught inside the adapter and
mapped to one of the four in-band failure markers, and each such call logs
the failure; a marker result is excluded from the output and logged as a
skip but the loop continues; a worker-level failure surfacing at the
collection point is caught there, leaves exactly the same entries and
progress as a GenericError result, is logged, is still counted in
progress, and neither aborts the sibling tasks nor the batch. -/
theorem failure_containment (path : String) (total idx c : Nat) (st : LoopOut)
    (pre post : List (TaskMeta × Except Unit String)) (m : TaskMeta) (t : String)
    (hm : t ∈ markerStrings) :
    ((ocrImage .blockedPrompt path).1 = "[OCR Blocked]" ∧
      (ocrImage .stopCandidate path).1 = "[OCR Stopped]" ∧
      (ocrImage .fileNotFound path).1 = "[File Not Found]" ∧
      (ocrImage .otherError path).1 = "[OCR Error]") ∧
    ((ocrImage .blockedPrompt path).1 ∈ markerStrings ∧
      (ocrImage .stopCandidate path).1 ∈ markerStrings ∧
      (ocrImage .fileNotFound path).1 ∈ markerStrings ∧
      (ocrImage .otherError path).1 ∈ markerStrings) ∧
    ((ocrImage .blockedPrompt path).2 = [.errBlocked path] ∧
      (ocrImage .stopCandidate path).2 = [.errStopped path] ∧
      (ocrImage .fileNotFound path).2 = [.errFileNotFound path] ∧
      (ocrImage .otherError path).2 = [.errGeneric path]) ∧
    entriesOf ((m, Except.ok t) :: post) c = entriesOf post c ∧
    logsOf total idx ((m, Except.ok t) :: post) =
      LogEvent.doneTask m.filename (idx + 1) total :: LogEvent.skipEntry m.filename t ::
        logsOf total (idx + 1) post ∧
    (runLoop total idx st (pre ++ (m, Except.error ()) :: post)).entries =
      (runLoop total idx st (pre ++ (m, Except.ok "[OCR Error]") :: post)).entries ∧
    (runLoop total idx st (pre ++ (m, Except.error ()) :: post)).progress =
      (runLoop total idx st (pre ++ (m, Except.ok "[OCR Error]") :: post)).progress ∧
    (runLoop total idx st (pre ++ (m, Except.error ()) :: post)).entries =
      st.entries ++ entriesOf (pre ++ post) st.counter ∧
    (runLoop total idx st (pre ++ (m, Except.error ()) :: post)).processed =
      st.processed + (pre.length + 1 + post.length) ∧
    LogEvent.criticalError m.filename ∈
      (runLoop total idx st (pre ++ (m, Except.error ()) :: post)).logs := by
  have hmarker : ¬ (t ≠ "" ∧ t ∉ markerStrings) := fun hcon => hcon.2 hm
  have hgeneric : ¬ ("[OCR Error]" ≠ "" ∧ "[OCR Error]" ∉ markerStrings) := by decide
  refine ⟨⟨rfl, rfl, rfl, rfl⟩,
    ⟨(by decide : "[OCR Blocked]" ∈ markerStrings),
     (by decide : "[OCR Stopped]" ∈ markerStrings),
     (by decide : "[File Not Found]" ∈ markerStrings),
     (by decide : "[OCR Error]" ∈ markerStrings)⟩,
    ⟨rfl, rfl, rfl, rfl⟩, ?_, ?_, ?_, ?_, ?_, ?_, ?_⟩
  · simp only [entriesOf]
    rw [if_neg hmarker]
  · simp only [logsOf]
    rw [if_neg hmarker]
    rfl
  · simp only [runLoop_eq]
    rw [entriesOf_append, entriesOf_append]
    congr 1
  · simp only [runLoop_eq]
    congr 2
    simp [List.length_append]
  · simp only [runLoop_eq]
    rw [entriesOf_append, entriesOf_append]
    congr 1
  · simp only [runLoop_eq]
    simp [List.length_append]
    omega
  · simp only [runLoop_eq]
    rw [logsOf_append]
    simp [logsOf, List.mem_append]

/-- Witness for C5: a concrete crashed worker on one task produces the
same entries as a GenericError result and its critical-error line is
logged. -/
theorem failure_containment_witness :
    (ocrImage .otherError "p").1 = "[OCR Error]" ∧
    (runLoop 1 0 loopInit ([] ++ (sampleTask, Except.error ()) :: [])).entries =
      (runLoop 1 0 loopInit ([] ++ (sampleTask, Except.ok "[OCR Error]") :: [])).entries ∧
    LogEvent.criticalError sampleTask.filename ∈
      (runLoop 1 0 loopInit ([] ++ (sampleTask, Except.error ()) :: [])).logs := by
  have h := failure_containment "p" 1 0 1 loopInit [] [] sampleTask "[OCR Blocked]"
    (by decide)
  exact ⟨h.1.2.2.2, h.2.2.2.2.2.1, h.2.2.2.2.2.2.2.2.2⟩

/-- C7: when the key, model and input directory are fine but no filename
matches the pattern, the run returns failure with exactly one progress
event (0,0), builds no tasks and no entries, writes nothing, starts no
workers, and reports the distinguished NoMatchingFiles log line, which no
fatal-failure report shares. -/
theorem noMatch_report (env : Env) (worker : Nat → WorkerOutcome)
    (hkey : env.apiKey ≠ "") (hmodel : env.modelConfigOk = true)
    (hdir : env.inputFolderIsDir = true) (hnm : matchedFiles env.listing = []) :
    (coreRun env worker).success = false ∧
    (coreRun env worker).progress = [(0, 0)] ∧
    (coreRun env worker).tasks = [] ∧
    (coreRun env worker).entries = [] ∧
    (coreRun env worker).written = none ∧
    (coreRun env worker).workersStarted = false ∧
    LogEvent.noImagesFound ∈ (coreRun env worker).logs ∧
    LogEvent.apiKeyMissing ∉ (coreRun env worker).logs ∧
    LogEvent.configError ∉ (coreRun env worker).logs ∧
    LogEvent.inputNotFound env.inputFolder ∉ (coreRun env worker).logs ∧
    LogEvent.writeError (outPath env) ∉ (coreRun env worker).logs := by
  rw [coreRun_noMatch env worker hkey hmodel hdir hnm]
  refine ⟨rfl, rfl, rfl, rfl, rfl, rfl, by simp, ?_, ?_, ?_, ?_⟩
  all_goals
    intro hmem
    rcases List.mem_append.mp hmem with hmem1 | hmem2
    · rcases List.mem_append.mp hmem1 with hb | hs
      · simp at hb
      · obtain ⟨f, hf⟩ := skipLogs_shape hs
        simp at hf
    · simp at hmem2

/-- Witness for C7: a listing with a single pattern-violating jpg file
runs to NoMatchingFiles with one (0,0) progress event. -/
theorem noMatch_report_witness :
    (coreRun (sampleEnv ["x.jpg"] true) (sampleWorkerText "hi")).success = false ∧
    (coreRun (sampleEnv ["x.jpg"] true) (sampleWorkerText "hi")).progress = [(0, 0)] ∧
    (coreRun (sampleEnv ["x.jpg"] true) (sampleWorkerText "hi")).entries = [] ∧
    LogEvent.noImagesFound ∈ (coreRun (sampleEnv ["x.jpg"] true) (sampleWorkerText "hi")).logs := by
  have h := noMatch_report (sampleEnv ["x.jpg"] true) (sampleWorkerText "hi")
    (by decide) (by decide) (by decide) (by decide)
  exact ⟨h.1, h.2.1, h.2.2.2.1, h.2.2.2.2.2.2.1⟩

/-- C8 counterexample: the assembled entries are not available to the
caller after a write failure. Two failing runs that differ only in a
successful task's recognized text produce identical caller-visible output
(return flag, both callback streams, file state) while their in-memory
entry lists differ, so no caller can recover the entries to retry the
write. -/
theorem write_failure_entries_not_returned :
    (coreRun (sampleEnv ["0_00_00_000__0_00_00_001.jpg"] false)
        (sampleWorkerText "hello")).success = false ∧
    (coreRun (sampleEnv ["0_00_00_000__0_00_00_001.jpg"] false)
        (sampleWorkerText "world")).success = false ∧
    callerView (coreRun (sampleEnv ["0_00_00_000__0_00_00_001.jpg"] false)
        (sampleWorkerText "hello")) =
      callerView (coreRun (sampleEnv ["0_00_00_000__0_00_00_001.jpg"] false)
        (sampleWorkerText "world")) ∧
    (coreRun (sampleEnv ["0_00_00_000__0_00_00_001.jpg"] false)
        (sampleWorkerText "hello")).entries ≠
      (coreRun (sampleEnv ["0_00_00_000__0_00_00_001.jpg"] false)
        (sampleWorkerText "world")).entries := by
  refine ⟨by decide, by decide, by decide, by decide⟩

/-- C8 amended: when the final write fails the batch reports failure and
logs the write error, nothing is written, and the assembled entry list
was fully built before the write and is unaffected by the failure (it
equals the entry list of the identical run whose write succeeds) — but it
stays local to the engine and is not part of what the caller receives. -/
theorem write_failure_preserves_entries (env : Env) (worker : Nat → WorkerOutcome)
    (hkey : env.apiKey ≠ "") (hmodel : env.modelConfigOk = true)
    (hdir : env.inputFolderIsDir = true) (hne : matchedFiles env.listing ≠ [])
    (hw : env.writeOk = false) :
    (coreRun env worker).success = false ∧
    LogEvent.writeError (outPath env) ∈ (coreRun env worker).logs ∧
    (coreRun env worker).written = none ∧
    (coreRun env worker).entries = (coreRun { env with writeOk := true } worker).entries := by
  rw [coreRun_main env worker hkey hmodel hdir hne]
  rw [coreRun_main { env with writeOk := true } worker hkey hmodel hdir hne]
  rw [hw]
  refine ⟨rfl, ?_, rfl, rfl⟩
  simp

/-- Witness for C8's amended theorem at a one-task run with a failing
write. -/
theorem write_failure_preserves_entries_witness :
    (coreRun (sampleEnv ["0_00_00_000__0_00_00_001.jpg"] false)
        (sampleWorkerText "hello")).success = false ∧
    (coreRun (sampleEnv ["0_00_00_000__0_00_00_001.jpg"] false)
        (sampleWorkerText "hello")).written = none ∧
    (coreRun (sampleEnv ["0_00_00_000__0_00_00_001.jpg"] false)
        (sampleWorkerText "hello")).entries =
      (coreRun { sampleEnv ["0_00_00_000__0_00_00_001.jpg"] false with writeOk := true }
        (sampleWorkerText "hello")).entries := by
  have h := write_failure_preserves_entries
    (sampleEnv ["0_00_00_000__0_00_00_001.jpg"] false) (sampleWorkerText "hello")
    (by decide) (by decide) (by decide) (by decide) (by decide)
  exact ⟨h.1, h.2.2.1, h.2.2.2⟩

/-- C9: the failure markers are in-band strings: a recognition call that
genuinely succeeds with extracted text exactly equal to a marker returns
that marker string, and the collection loop then excludes the task from
the output exactly as if it had failed. -/
theorem inband_marker_collision (path : String) (c : Nat)
    (pre post : List (TaskMeta × Except Unit String)) (m : TaskMeta) (t : String)
    (hm : t ∈ markerStrings) :
    (ocrImage (.success [t]) path).1 = t ∧
    entriesOf (pre ++ (m, Except.ok t) :: post) c = entriesOf (pre ++ post) c ∧
    entriesOf (pre ++ (m, Except.ok t) :: post) c =
      entriesOf (pre ++ (m, Except.error ()) :: post) c := by
  have hmarker : ¬ (t ≠ "" ∧ t ∉ markerStrings) := fun hcon => hcon.2 hm
  refine ⟨?_, ?_, ?_⟩
  · fin_cases hm <;> rfl
  · rw [entriesOf_append, entriesOf_append]
    congr 1
    simp only [entriesOf]
    rw [if_neg hmarker]
  · rw [entriesOf_append, entriesOf_append]
    congr 1
    simp only [entriesOf]
    rw [if_neg hmarker]

/-- Witness for C9: a genuinely successful recognition returning exactly
"[OCR Blocked]" is excluded like a failure. -/
theorem inband_marker_collision_witness :
    (ocrImage (.success ["[OCR Blocked]"]) "p").1 = "[OCR Blocked]" ∧
    entriesOf ([] ++ (sampleTask, Except.ok "[OCR Blocked]") :: []) 1 =
      entriesOf ([] ++ []) 1 := by
  have h := inband_marker_collision "p" 1 [] [] sampleTask "[OCR Blocked]" (by decide)
  exact ⟨h.1, h.2.1⟩

/-- C10: an empty API key, a failing model configuration, or a missing
input directory makes the core return False before any progress event,
any directory enumeration, and any output-directory creation; and the
output directory is created exactly when the key, the configuration and
the input-directory check all succeed — in particular also on runs that
end in NoMatchingFiles. -/
theorem early_return_order (env : Env) (worker : Nat → WorkerOutcome) :
    ((env.apiKey = "" ∨ env.modelConfigOk = false ∨ env.inputFolderIsDir = false) →
      (coreRun env worker).success = false ∧
      (coreRun env worker).progress = [] ∧
      (coreRun env worker).filesEnumerated = false ∧
      (coreRun env worker).outputDirCreated = false ∧
      (coreRun env worker).workersStarted = false) ∧
    ((coreRun env worker).outputDirCreated = true ↔
      (env.apiKey ≠ "" ∧ env.modelConfigOk = true ∧ env.inputFolderIsDir = true)) := by
  by_cases h1 : env.apiKey = ""
  · rw [coreRun_apiKeyMissing env worker h1]
    refine ⟨fun _ => ⟨rfl, rfl, rfl, rfl, rfl⟩, ?_⟩
    constructor
    · intro hfalse
      cases hfalse
    · intro ⟨hk, _, _⟩
      exact absurd h1 hk
  · by_cases h2 : env.modelConfigOk = true
    · by_cases h3 : env.inputFolderIsDir = true
      · constructor
        · intro habs
          rcases habs with ha | hb | hc
          · exact absurd ha h1
          · rw [h2] at hb
            cases hb
          · rw [h3] at hc
            cases hc
        · constructor
          · intro _
            exact ⟨h1, h2, h3⟩
          · intro _
            by_cases hnm : matchedFiles env.listing = []
            · rw [coreRun_noMatch env worker h1 h2 h3 hnm]
            · rw [coreRun_main env worker h1 h2 h3 hnm]
      · have h3f : env.inputFolderIsDir = false := by
          cases hb : env.inputFolderIsDir
          · rfl
          · exact absurd hb h3
        rw [coreRun_inputNotFound env worker h1 h2 h3f]
        refine ⟨fun _ => ⟨rfl, rfl, rfl, rfl, rfl⟩, ?_⟩
        constructor
        · intro hfalse
          cases hfalse
        · intro ⟨_, _, hd⟩
          rw [hd] at h3f
          cases h3f
    · have h2f : env.modelConfigOk = false := by
        cases hb : env.modelConfigOk
        · rfl
        · exact absurd hb h2
      rw [coreRun_configError env worker h1 h2f]
      refine ⟨fun _ => ⟨rfl, rfl, rfl, rfl, rfl⟩, ?_⟩
      constructor
      · intro hfalse
        cases hfalse
      · intro ⟨_, hmm, _⟩
        rw [hmm] at h2f
        cases h2f

/-- Witness for C10: a run with an empty key makes no progress events and
creates no output directory, while a run that ends in NoMatchingFiles has
created the output directory. -/
theorem early_return_order_witness :
    (coreRun { sampleEnv ["x.jpg"] true with apiKey := "" } (sampleWorkerText "hi")).progress
      = [] ∧
    (coreRun { sampleEnv ["x.jpg"] true with apiKey := "" }
      (sampleWorkerText "hi")).outputDirCreated = false ∧
    (coreRun (sampleEnv ["x.jpg"] true) (sampleWorkerText "hi")).outputDirCreated = true := by
  have h1 := (early_return_order { sampleEnv ["x.jpg"] true with apiKey := "" }
    (sampleWorkerText "hi")).1 (Or.inl rfl)
  have h2 := (early_return_order (sampleEnv ["x.jpg"] true) (sampleWorkerText "hi")).2.mpr
    ⟨by decide, by decide, by decide⟩
  exact ⟨h1.2.1, h1.2.2.2.1, h2⟩

/-- Witness for C6 at the spec scenario: `1_02_03_004__1_02_05_006_frame.jpg`
decodes and its timestamps render as `01:02:03,004` and `01:02:05,006`. -/
theorem filename_decode_render_witness :
    matchFilename "1_02_03_004__1_02_05_006_frame.jpg" =
      some ⟨"1", "02", "03", "004", "1", "02", "05", "006", "jpg"⟩ ∧
    format_srt_time "1" "02" "03" "004" = "01:02:03,004" ∧
    format_srt_time "1" "02" "05" "006" = "01:02:05,006" ∧
    (∃ A B C D : String,
      format_srt_time "1" "02" "03" "004" = A ++ ":" ++ B ++ ":" ++ C ++ "," ++ D ∧
      A.data.all isDigitChar = true ∧ strToNat A = strToNat "1" ∧
      A.data.length = max 2 (natDigits (strToNat "1")).length ∧ 2 ≤ A.data.length ∧
      B.data.all isDigitChar = true ∧ strToNat B = strToNat "02" ∧ B.data.length = 2 ∧
      C.data.all isDigitChar = true ∧ strToNat C = strToNat "03" ∧ C.data.length = 2 ∧
      D.data.all isDigitChar = true ∧ strToNat D = strToNat "004" ∧ D.data.length = 3) := by
  have hm : matchFilename "1_02_03_004__1_02_05_006_frame.jpg" =
      some ⟨"1", "02", "03", "004", "1", "02", "05", "006", "jpg"⟩ := by decide
  refine ⟨hm, by decide, by decide, ?_⟩
  exact (filename_decode_render hm).1
